import Mathlib

/-!
Verification of the operation-aggregation core of
`endpoints-management-python` (files `google/scc/aggregators/operation.py`
and `google/scc/metric_descriptor.py`) against its natural-language
specification.

The `Aggregator` class and the `KnownMetrics` enumeration are embedded from
the source.  The collaborator modules `google/scc/aggregators/metric_value.py`
(`sign`, `merge`) and `google/scc/timestamp.py` (`compare`) are not part of
the provided source tree; their behaviour is modelled from the specification,
and each such definition is marked `Modelled from the spec:` in its doc
comment.
-/

namespace SCC

/-- The metric kinds (`MetricKind` lives in `google/scc/__init__.py`, outside
the provided sources).  Modelled from the spec: DELTA means samples
accumulate additively; any other kind means the latest observed sample
wins. -/
inductive MetricKind where
  | DELTA
  | GAUGE
  | CUMULATIVE
deriving DecidableEq, Repr

/-- The value types of metric descriptors (`ValueType` lives in
`google/scc/__init__.py`, outside the provided sources). -/
inductive ValueType where
  | BOOL
  | INT64
  | DOUBLE
  | STRING
  | DISTRIBUTION
  | MONEY
deriving DecidableEq, Repr

/-- Modelled from the spec: timestamps form a totally ordered set with a
three-way comparison; their wire representation is irrelevant here. -/
abbrev Timestamp := Int

/-- Modelled from the spec: `timestamp.compare(t1, t2) -> {-1, 0, 1}`, the
total ordering on timestamps (`google/scc/timestamp.py` is not in the
provided sources). -/
def Timestamp.threeWayCompare (t1 t2 : Timestamp) : Int :=
  if t1 < t2 then -1 else if t1 = t2 then 0 else 1

/-- Log entries are opaque to the aggregation core; they are only
concatenated. -/
abbrev LogEntry := String

/-- A money amount, one of the possible `MetricValue` payloads. -/
structure Money where
  currencyCode : String
  units : Int
  nanos : Int
deriving DecidableEq, Repr

/-- An exponential-bucket histogram payload.  Modelled from the spec
(`google/scc/distribution.py` is not in the provided sources): shape
parameters plus bucket counters and online moment accumulators.  The
floating-point `growthFactor`, `scale`, `mean` and `sumOfSquaredDeviation`
are idealised as rationals. -/
structure Distribution where
  numFiniteBuckets : Nat
  growthFactor : ℚ
  scale : ℚ
  bucketCounts : List Nat
  count : Nat
  mean : ℚ
  sumOfSquaredDeviation : ℚ
deriving DecidableEq, Repr

/-- Modelled from the spec: distribution merge requires identical shape
parameters (bucket count, growth factor, scale) on both operands. -/
def Distribution.sameShape (a b : Distribution) : Bool :=
  decide (a.numFiniteBuckets = b.numFiniteBuckets) &&
    decide (a.growthFactor = b.growthFactor) && decide (a.scale = b.scale)

/-- Modelled from the spec: combined distribution — bucket counts summed
element-wise, `count` summed, `mean` and `sumOfSquaredDeviation` recombined
by the parallel-combination formulas for online moment accumulators. -/
def Distribution.combine (a b : Distribution) : Distribution :=
  let n1 : ℚ := a.count
  let n2 : ℚ := b.count
  let n : ℚ := n1 + n2
  let m : ℚ := if n = 0 then 0 else (n1 * a.mean + n2 * b.mean) / n
  { a with
    bucketCounts := List.zipWith (· + ·) a.bucketCounts b.bucketCounts
    count := a.count + b.count
    mean := m
    sumOfSquaredDeviation :=
      a.sumOfSquaredDeviation + b.sumOfSquaredDeviation +
        n1 * (a.mean - m) ^ 2 + n2 * (b.mean - m) ^ 2 }

/-- The tagged payload of a `MetricValue`: exactly one of int64, double,
distribution, string, bool, money.  Doubles are idealised as rationals. -/
inductive MetricPayload where
  | int64 (v : Int)
  | double (v : ℚ)
  | distribution (d : Distribution)
  | string (s : String)
  | bool (b : Bool)
  | money (m : Money)
deriving DecidableEq, Repr

/-- A labelled metric sample: a label mapping (kept in insertion order, as a
Python dict does) and one payload. -/
structure MetricValue where
  labels : List (String × String)
  payload : MetricPayload
deriving DecidableEq, Repr

/-- A metric name together with its collection of samples. -/
structure MetricValueSet where
  metricName : String
  metricValues : List MetricValue
deriving DecidableEq, Repr

/-- An API-call usage record, the unit the core aggregates: identifier, name,
consumer identifier, optional start/end timestamps, ordered log entries, and
metric value sets. -/
structure Operation where
  operationId : String
  operationName : String
  consumerId : String
  startTime : Option Timestamp
  endTime : Option Timestamp
  logEntries : List LogEntry
  metricValueSets : List MetricValueSet
deriving DecidableEq, Repr

/-- Lexicographic order on label pairs, used to canonicalise a label mapping:
sort by label key, then by value. -/
def labelPairLe (p q : String × String) : Prop :=
  p.1 < q.1 ∨ (p.1 = q.1 ∧ p.2 ≤ q.2)

instance : DecidableRel labelPairLe := fun p q => by
  unfold labelPairLe; infer_instance

/-- The canonical signature of a sample.  Modelled from the spec:
`signature(sample)` canonicalises the label mapping order-independently —
sort by label key, then serialise the key/value pairs deterministically
(`metric_value.sign` is not in the provided sources; the serialisation is
kept as the sorted pair list, an opaque comparable key). -/
def sign (mv : MetricValue) : List (String × String) :=
  List.insertionSort labelPairLe mv.labels

abbrev Signature := List (String × String)

/-- Association-list lookup, modelling `dict.get` of a Python dict with
unique keys. -/
def alistGet {α β : Type} [DecidableEq α] : List (α × β) → α → Option β
  | [], _ => none
  | (k, v) :: rest, key => if k = key then some v else alistGet rest key

/-- Association-list update, modelling `d[key] = val` on a Python dict:
replace the binding in place when the key is present, otherwise append a new
binding. -/
def alistPut {α β : Type} [DecidableEq α] : List (α × β) → α → β → List (α × β)
  | [], key, val => [(key, val)]
  | (k, v) :: rest, key, val =>
      if k = key then (key, val) :: rest else (k, v) :: alistPut rest key val

/-- Modelled from the spec: `metric_value.merge(kind, prior, incoming)`
(`google/scc/aggregators/metric_value.py` is not in the provided sources).
Under a non-DELTA kind the incoming value replaces the prior outright.
Under DELTA, numeric payloads are summed, distributions are combined after a
shape check (mismatch is an error), string/bool payloads fall back to
last-write-wins per the spec's open question, and a payload-type mismatch is
an error.  The spec gives no additive rule for money; it is treated as
last-write-wins like the other non-numeric payloads.  The surviving value is
always the incoming sample, holding the merged payload. -/
def MetricValue.combine (kind : MetricKind) (prior incoming : MetricValue) :
    Except String MetricValue :=
  if kind ≠ MetricKind.DELTA then .ok incoming
  else
    match prior.payload, incoming.payload with
    | .int64 a, .int64 b => .ok { incoming with payload := .int64 (a + b) }
    | .double a, .double b => .ok { incoming with payload := .double (a + b) }
    | .distribution a, .distribution b =>
        if a.sameShape b then
          .ok { incoming with payload := .distribution (a.combine b) }
        else .error "mismatched distribution bucket options"
    | .string _, .string _ => .ok incoming
    | .bool _, .bool _ => .ok incoming
    | .money _, .money _ => .ok incoming
    | _, _ => .error "conflicting metric value types"

/-- The per-metric-name signature map: metric name to a map from signature to
the latest merged sample (`_metric_values_by_name_then_sign`). -/
abbrev SignMap := List (String × List (Signature × MetricValue))

/-- The aggregator state: the kind lookup table, the signature maps, and the
held operation skeleton (`self._kinds`, `self._metric_values_by_name_then_sign`,
`self._op`). -/
structure Aggregator where
  kinds : List (String × MetricKind)
  metricValuesByNameThenSign : SignMap
  op : Operation
deriving DecidableEq, Repr

/-- The default kind `Aggregator.DEFAULT_KIND`: used when kinds are not specified, or are
missing a metric name. -/
def DEFAULT_KIND : MetricKind := MetricKind.DELTA

/-- The lookup `self._kinds.get(name, self.DEFAULT_KIND)`. -/
def kindOf (kinds : List (String × MetricKind)) (name : String) : MetricKind :=
  (alistGet kinds name).getD DEFAULT_KIND

/-- The inner loop of `Aggregator._merge_metric_values`: one sample merged
into the per-name signature map.  A prior sample under the same signature is
combined with the incoming one (which may fail), and the incoming sample —
holding the merged payload — is stored under the signature. -/
def mergeOneValue (kind : MetricKind) (bySignature : List (Signature × MetricValue))
    (mv : MetricValue) : Except String (List (Signature × MetricValue)) := do
  let signature := sign mv
  match alistGet bySignature signature with
  | some prior =>
      let merged ← MetricValue.combine kind prior mv
      pure (alistPut bySignature signature merged)
  | none => pure (alistPut bySignature signature mv)

/-- The outer loop body of `Aggregator._merge_metric_values`: one
`MetricValueSet` folded into the signature maps.  Indexing the defaultdict
creates an (initially empty) per-name map even when the set carries no
samples. -/
def mergeValueSet (kinds : List (String × MetricKind)) (m : SignMap)
    (valueSet : MetricValueSet) : Except String SignMap := do
  let name := valueSet.metricName
  let kind := kindOf kinds name
  let bySignature := (alistGet m name).getD []
  let bySignature ← valueSet.metricValues.foldlM (mergeOneValue kind) bySignature
  pure (alistPut m name bySignature)

/-- Embeds `Aggregator._merge_metric_values`: every metric value set of the other
operation folded into the signature maps. -/
def mergeMetricValues (kinds : List (String × MetricKind)) (m : SignMap)
    (sets : List MetricValueSet) : Except String SignMap :=
  sets.foldlM (mergeValueSet kinds) m

/-- Embeds `Aggregator.__init__` starting from an `Operation` (the dynamic
`isinstance` check is modelled separately, see `initFromRecord`): copy the
initial operation, fold its own metric samples in as the first merge, then
clear the copy's metric value sets and hold it as the skeleton. -/
def Aggregator.ofOperation (initialOp : Operation)
    (kinds : List (String × MetricKind)) : Except String Aggregator := do
  let m ← mergeMetricValues kinds [] initialOp.metricValueSets
  pure { kinds := kinds
         metricValuesByNameThenSign := m
         op := { initialOp with metricValueSets := [] } }

/-- A dynamically typed Python value, as far as the constructor's
`assert isinstance(initial_op, messages.Operation)` can observe it. -/
inductive PyRecord where
  | operation (o : Operation)
  | pyNone
  | pyStr (s : String)
  | pyInt (n : Int)
  | pyList (n : Nat)
deriving DecidableEq, Repr

/-- Embeds `Aggregator.__init__` as called with a dynamically typed argument: the
`assert isinstance(initial_op, messages.Operation)` on the first line rejects
any record that is not an `Operation`. -/
def Aggregator.initFromRecord (record : PyRecord)
    (kinds : List (String × MetricKind)) : Except String Aggregator :=
  match record with
  | .operation o => Aggregator.ofOperation o kinds
  | _ => .error "initial_op must be an Operation"

/-- Embeds `Aggregator._merge_timestamps`: widen the held operation's start/end
times by the other operation's, treating an absent bound as
non-constraining. -/
def mergeTimestamps (op other : Operation) : Operation :=
  let op1 :=
    match other.startTime with
    | some s =>
        match op.startTime with
        | none => { op with startTime := some s }
        | some t =>
            if Timestamp.threeWayCompare s t = -1 then { op with startTime := some s }
            else op
    | none => op
  match other.endTime with
  | some e =>
      match op1.endTime with
      | none => { op1 with endTime := some e }
      | some t =>
          if Timestamp.threeWayCompare t e = -1 then { op1 with endTime := some e }
          else op1
  | none => op1

/-- Embeds `Aggregator.add`: append the other operation's log entries, widen the
time range, and merge its metric values into the signature maps. -/
def Aggregator.add (a : Aggregator) (otherOp : Operation) :
    Except String Aggregator := do
  let op := { a.op with logEntries := a.op.logEntries ++ otherOp.logEntries }
  let op := mergeTimestamps op otherOp
  let m ← mergeMetricValues a.kinds a.metricValuesByNameThenSign
            otherOp.metricValueSets
  pure { a with op := op, metricValuesByNameThenSign := m }

/-- The export half of `Aggregator.as_operation`: one `MetricValueSet` per
metric name, names sorted ascending, samples in the per-name map's insertion
order. -/
def exportSets (m : SignMap) : List MetricValueSet :=
  (List.insertionSort (· ≤ ·) (m.map Prod.fst)).map fun name =>
    { metricName := name
      metricValues := ((alistGet m name).getD []).map Prod.snd }

/-- Embeds `Aggregator.as_operation`: copy the held skeleton and append the exported
metric value sets. -/
def Aggregator.asOperation (a : Aggregator) : Operation :=
  { a.op with
    metricValueSets :=
      a.op.metricValueSets ++ exportSets a.metricValuesByNameThenSign }

/-- A call to `as_operation` viewed as a state transformer: the snapshot is
built from a copy of the held skeleton (`encoding.CopyProtoMessage(self._op)`)
and the appends mutate only that local copy, so the aggregator component
after the call is the aggregator itself. -/
def Aggregator.asOperationCall (a : Aggregator) : Operation × Aggregator :=
  (a.asOperation, a)

/-- The fixed closed set of update strategies bound to known metrics
(`_set_int64_metric_to_constant_1` and friends), embedded as tags. -/
inductive UpdateStrategy where
  | int64Constant1
  | int64Constant1IfHttpError
  | distributionRequestSize
  | distributionResponseSize
  | distributionRequestTime
  | distributionBackendTime
  | distributionOverheadTime
deriving DecidableEq, Repr

/-- One member of the `KnownMetrics` enumeration: full metric name, kind,
value type, and the update strategy. -/
structure KnownMetric where
  metricName : String
  kind : MetricKind
  valueType : ValueType
  updateOpFunc : UpdateStrategy
deriving DecidableEq, Repr

/-- The `KnownMetrics` enumeration of `google/scc/metric_descriptor.py`, in
declaration order. -/
def knownMetrics : List KnownMetric :=
  [ { metricName := "serviceruntime.googleapis.com/api/consumer/request_count"
      kind := .DELTA, valueType := .INT64
      updateOpFunc := .int64Constant1 },
    { metricName := "serviceruntime.googleapis.com/api/producer/request_count"
      kind := .DELTA, valueType := .INT64
      updateOpFunc := .int64Constant1 },
    { metricName :=
        "serviceruntime.googleapis.com/api/producer/by_consumer/request_count"
      kind := .DELTA, valueType := .INT64
      updateOpFunc := .int64Constant1 },
    { metricName := "serviceruntime.googleapis.com/api/consumer/request_sizes"
      kind := .DELTA, valueType := .DISTRIBUTION
      updateOpFunc := .distributionRequestSize },
    { metricName := "serviceruntime.googleapis.com/api/producer/request_sizes"
      kind := .DELTA, valueType := .DISTRIBUTION
      updateOpFunc := .distributionRequestSize },
    { metricName :=
        "serviceruntime.googleapis.com/api/producer/by_consumer/request_sizes"
      kind := .DELTA, valueType := .DISTRIBUTION
      updateOpFunc := .distributionRequestSize },
    { metricName := "serviceruntime.googleapis.com/api/consumer/response_sizes"
      kind := .DELTA, valueType := .DISTRIBUTION
      updateOpFunc := .distributionResponseSize },
    { metricName := "serviceruntime.googleapis.com/api/producer/response_sizes"
      kind := .DELTA, valueType := .DISTRIBUTION
      updateOpFunc := .distributionResponseSize },
    { metricName :=
        "serviceruntime.googleapis.com/api/producer/by_consumer/response_sizes"
      kind := .DELTA, valueType := .DISTRIBUTION
      updateOpFunc := .distributionResponseSize },
    { metricName := "serviceruntime.googleapis.com/api/consumer/error_count"
      kind := .DELTA, valueType := .INT64
      updateOpFunc := .int64Constant1IfHttpError },
    { metricName := "serviceruntime.googleapis.com/api/producer/error_count"
      kind := .DELTA, valueType := .INT64
      updateOpFunc := .int64Constant1IfHttpError },
    { metricName :=
        "serviceruntime.googleapis.com/api/producer/by_consumer/error_count"
      kind := .DELTA, valueType := .INT64
      updateOpFunc := .int64Constant1IfHttpError },
    { metricName := "serviceruntime.googleapis.com/api/consumer/total_latencies"
      kind := .DELTA, valueType := .DISTRIBUTION
      updateOpFunc := .distributionRequestTime },
    { metricName := "serviceruntime.googleapis.com/api/producer/total_latencies"
      kind := .DELTA, valueType := .DISTRIBUTION
      updateOpFunc := .distributionRequestTime },
    { metricName :=
        "serviceruntime.googleapis.com/api/producer/by_consumer/total_latencies"
      kind := .DELTA, valueType := .DISTRIBUTION
      updateOpFunc := .distributionRequestTime },
    { metricName :=
        "serviceruntime.googleapis.com/api/consumer/backend_latencies"
      kind := .DELTA, valueType := .DISTRIBUTION
      updateOpFunc := .distributionBackendTime },
    { metricName :=
        "serviceruntime.googleapis.com/api/producer/backend_latencies"
      kind := .DELTA, valueType := .DISTRIBUTION
      updateOpFunc := .distributionBackendTime },
    { metricName :=
        "serviceruntime.googleapis.com/api/producer/by_consumer/backend_latencies"
      kind := .DELTA, valueType := .DISTRIBUTION
      updateOpFunc := .distributionBackendTime },
    { metricName :=
        "serviceruntime.googleapis.com/api/consumer/request_overhead_latencies"
      kind := .DELTA, valueType := .DISTRIBUTION
      updateOpFunc := .distributionOverheadTime },
    { metricName :=
        "serviceruntime.googleapis.com/api/producer/request_overhead_latencies"
      kind := .DELTA, valueType := .DISTRIBUTION
      updateOpFunc := .distributionOverheadTime },
    { metricName :=
        "serviceruntime.googleapis.com/api/producer/by_consumer/request_overhead_latencies"
      kind := .DELTA, valueType := .DISTRIBUTION
      updateOpFunc := .distributionOverheadTime } ]

/-- A metric descriptor as far as `KnownMetrics.matches` inspects it: name,
kind, and value type. -/
structure MetricDescriptor where
  name : String
  metricKind : MetricKind
  valueType : ValueType
deriving DecidableEq, Repr

/-- Embeds `KnownMetrics.matches`: a descriptor matches an enum member when name,
kind and value type all agree. -/
def KnownMetric.matches (m : KnownMetric) (desc : MetricDescriptor) : Bool :=
  decide (m.metricName = desc.name) && decide (m.kind = desc.metricKind) &&
    decide (m.valueType = desc.valueType)

/-- Embeds `KnownMetrics.is_supported`: some member of the enumeration matches the
descriptor. -/
def is_supported (desc : MetricDescriptor) : Bool :=
  knownMetrics.any fun m => m.matches desc

/-- The name-to-kind table derived from the known-metrics enumeration. -/
def knownKinds : List (String × MetricKind) :=
  knownMetrics.map fun m => (m.metricName, m.kind)

/-! ### Test-harness constructions used by the concrete statements -/

/-- An operation with every field empty or unset. -/
def Operation.empty : Operation :=
  { operationId := "", operationName := "", consumerId := ""
    startTime := none, endTime := none, logEntries := [], metricValueSets := [] }

/-- An otherwise empty operation carrying a single sample under a single
metric name. -/
def singleValueOp (name : String) (mv : MetricValue) : Operation :=
  { Operation.empty with
    metricValueSets := [{ metricName := name, metricValues := [mv] }] }

/-- The unlabelled int64-1 sample of the spec's end-to-end example 1. -/
def requestsMv : MetricValue := { labels := [], payload := .int64 1 }

/-! ### Helper lemmas -/

theorem exceptBind_ok {ε α β : Type} {x : Except ε α} {f : α → Except ε β}
    {b : β} (h : x >>= f = .ok b) : ∃ a, x = .ok a ∧ f a = .ok b := by
  cases x with
  | ok a => exact ⟨a, rfl, h⟩
  | error e => exact absurd h (by simp [Bind.bind, Except.bind])

theorem alistGet_put_self {α β : Type} [DecidableEq α]
    (m : List (α × β)) (k : α) (v : β) : alistGet (alistPut m k v) k = some v := by
  induction m with
  | nil => simp [alistGet, alistPut]
  | cons e rest ih =>
      by_cases h : e.1 = k <;> simp [alistGet, alistPut, h, ih]

theorem alistGet_mem {α β : Type} [DecidableEq α]
    {m : List (α × β)} {k : α} {v : β} (h : alistGet m k = some v) :
    (k, v) ∈ m := by
  induction m with
  | nil => simp [alistGet] at h
  | cons e rest ih =>
      by_cases he : e.1 = k
      · simp only [alistGet, if_pos he, Option.some.injEq] at h
        subst he
        subst h
        exact List.mem_cons_self _ _
      · simp only [alistGet, if_neg he] at h
        exact List.mem_cons_of_mem _ (ih h)

theorem alistPut_keys_mem {α β : Type} [DecidableEq α]
    (m : List (α × β)) (k : α) (v : β) (h : k ∈ m.map Prod.fst) :
    (alistPut m k v).map Prod.fst = m.map Prod.fst := by
  induction m with
  | nil => simp at h
  | cons e rest ih =>
      by_cases he : e.1 = k
      · simp [alistPut, he]
      · have hr : k ∈ rest.map Prod.fst := by
          rcases List.mem_cons.mp h with h | h
          · exact absurd h.symm he
          · exact h
        simp [alistPut, he, ih hr]

theorem alistPut_keys_notMem {α β : Type} [DecidableEq α]
    (m : List (α × β)) (k : α) (v : β) (h : k ∉ m.map Prod.fst) :
    (alistPut m k v).map Prod.fst = m.map Prod.fst ++ [k] := by
  induction m with
  | nil => simp [alistPut]
  | cons e rest ih =>
      have he : ¬e.1 = k := fun hc => h (by simp [List.map_cons, hc])
      have hr : k ∉ rest.map Prod.fst := fun hc =>
        h (by simp [List.map_cons, hc])
      simp [alistPut, he, ih hr]

theorem alistPut_keys_nodup {α β : Type} [DecidableEq α]
    (m : List (α × β)) (k : α) (v : β) (h : (m.map Prod.fst).Nodup) :
    ((alistPut m k v).map Prod.fst).Nodup := by
  by_cases hk : k ∈ m.map Prod.fst
  · rw [alistPut_keys_mem m k v hk]; exact h
  · rw [alistPut_keys_notMem m k v hk]
    refine List.Nodup.append h (List.nodup_singleton k) ?_
    intro x hx hx'
    rcases List.mem_singleton.mp hx' with rfl
    exact hk hx

theorem alistPut_mem {α β : Type} [DecidableEq α]
    {m : List (α × β)} {k : α} {v : β} {e : α × β}
    (h : e ∈ alistPut m k v) : e = (k, v) ∨ e ∈ m := by
  induction m with
  | nil => simpa [alistPut] using h
  | cons e' rest ih =>
      by_cases he : e'.1 = k
      · simp [alistPut, he] at h
        rcases h with h | h
        · exact Or.inl h
        · exact Or.inr (List.mem_cons_of_mem _ h)
      · simp only [alistPut, if_neg he, List.mem_cons] at h
        rcases h with h | h
        · exact Or.inr (by simp [h])
        · rcases ih h with h | h
          · exact Or.inl h
          · exact Or.inr (List.mem_cons_of_mem _ h)

theorem foldlM_except_preserve {ε α β : Type} (P : β → Prop)
    (f : β → α → Except ε β)
    (hf : ∀ b x b', P b → f b x = .ok b' → P b') :
    ∀ (l : List α) (b b' : β), P b → l.foldlM f b = .ok b' → P b' := by
  intro l
  induction l with
  | nil =>
      intro b b' hb h
      have : b = b' := by simpa [List.foldlM, pure, Except.pure] using h
      exact this ▸ hb
  | cons x rest ih =>
      intro b b' hb h
      rw [List.foldlM_cons] at h
      obtain ⟨mid, hmid, hrest⟩ := exceptBind_ok h
      exact ih mid b' (hf b x mid hb hmid) hrest

/-- The state invariant of the signature maps: distinct metric names at the
outer level and, within each per-name map, distinct signatures. -/
def SignMapWf (m : SignMap) : Prop :=
  (m.map Prod.fst).Nodup ∧ ∀ e ∈ m, (e.2.map Prod.fst).Nodup

/-- The aggregator's state invariant: its signature maps are well formed. -/
def Aggregator.Wf (a : Aggregator) : Prop :=
  SignMapWf a.metricValuesByNameThenSign

theorem combine_ok_labels {kind : MetricKind} {prior incoming merged : MetricValue}
    (h : MetricValue.combine kind prior incoming = .ok merged) :
    merged.labels = incoming.labels ∧
      (kind ≠ MetricKind.DELTA → merged = incoming) := by
  unfold MetricValue.combine at h
  by_cases hk : kind ≠ MetricKind.DELTA
  · rw [if_pos hk] at h
    cases h
    exact ⟨rfl, fun _ => rfl⟩
  · rw [if_neg hk] at h
    refine ⟨?_, fun hc => absurd hc (by simpa using hk)⟩
    cases hp : prior.payload <;> cases hi : incoming.payload <;>
      simp [hp, hi] at h <;> first
      | (cases h; rfl)
      | (rename_i a b
         by_cases hs : a.sameShape b <;> simp [hs] at h <;> cases h <;> rfl)

theorem mergeOneValue_ok {kind : MetricKind}
    {b : List (Signature × MetricValue)} {mv : MetricValue}
    {r : List (Signature × MetricValue)}
    (h : mergeOneValue kind b mv = .ok r) :
    ∃ stored, r = alistPut b (sign mv) stored ∧
      stored.labels = mv.labels := by
  unfold mergeOneValue at h
  dsimp only at h
  cases hget : alistGet b (sign mv) with
  | some prior =>
      rw [hget] at h
      obtain ⟨merged, hm, hr⟩ := exceptBind_ok h
      have : alistPut b (sign mv) merged = r := by
        simpa [pure, Except.pure] using hr
      exact ⟨merged, this.symm, (combine_ok_labels hm).1⟩
  | none =>
      rw [hget] at h
      have : alistPut b (sign mv) mv = r := by
        simpa [pure, Except.pure] using h
      exact ⟨mv, this.symm, rfl⟩

theorem mergeOneValue_keys_nodup {kind : MetricKind}
    {b : List (Signature × MetricValue)} {mv : MetricValue}
    {r : List (Signature × MetricValue)}
    (hb : (b.map Prod.fst).Nodup) (h : mergeOneValue kind b mv = .ok r) :
    (r.map Prod.fst).Nodup := by
  obtain ⟨stored, hr, -⟩ := mergeOneValue_ok h
  rw [hr]
  exact alistPut_keys_nodup b (sign mv) stored hb

theorem mergeValueSet_wf {kinds : List (String × MetricKind)} {m : SignMap}
    {vs : MetricValueSet} {m' : SignMap}
    (hm : SignMapWf m) (h : mergeValueSet kinds m vs = .ok m') :
    SignMapWf m' := by
  unfold mergeValueSet at h
  obtain ⟨bySig', hfold, hput⟩ := exceptBind_ok h
  have hput' : alistPut m vs.metricName bySig' = m' := by
    simpa [pure, Except.pure] using hput
  have hstart : (((alistGet m vs.metricName).getD []).map Prod.fst).Nodup := by
    cases hget : alistGet m vs.metricName with
    | some l => exact hm.2 _ (alistGet_mem hget)
    | none => simp
  have hinner : (bySig'.map Prod.fst).Nodup :=
    foldlM_except_preserve (fun l => (l.map Prod.fst).Nodup) _
      (fun b x b' hb hx => mergeOneValue_keys_nodup hb hx) _ _ _ hstart hfold
  subst hput'
  refine ⟨alistPut_keys_nodup m vs.metricName bySig' hm.1, ?_⟩
  intro e he
  rcases alistPut_mem he with rfl | he'
  · exact hinner
  · exact hm.2 _ he'

theorem mergeMetricValues_wf {kinds : List (String × MetricKind)} {m : SignMap}
    {sets : List MetricValueSet} {m' : SignMap}
    (hm : SignMapWf m) (h : mergeMetricValues kinds m sets = .ok m') :
    SignMapWf m' :=
  foldlM_except_preserve SignMapWf _
    (fun _ _ _ hb hx => mergeValueSet_wf hb hx) _ _ _ hm h

/-- The earlier of two optional time bounds, an absent bound being
non-constraining. -/
def optEarlier : Option Timestamp → Option Timestamp → Option Timestamp
  | x, none => x
  | none, some s => some s
  | some t, some s => some (min t s)

/-- The later of two optional time bounds, an absent bound being
non-constraining. -/
def optLater : Option Timestamp → Option Timestamp → Option Timestamp
  | x, none => x
  | none, some s => some s
  | some t, some s => some (max t s)

theorem threeWayCompare_eq_neg_one (s t : Timestamp) :
    (Timestamp.threeWayCompare s t = -1) ↔ s < t := by
  unfold Timestamp.threeWayCompare
  split_ifs with h1 h2
  · simp [h1]
  · simp [h2, lt_irrefl]
  · simp [h1]

theorem mergeTimestamps_char (op other : Operation) :
    mergeTimestamps op other =
      { op with startTime := optEarlier op.startTime other.startTime
                endTime := optLater op.endTime other.endTime } := by
  obtain ⟨i1, n1, c1, st1, et1, lg1, ms1⟩ := op
  obtain ⟨i2, n2, c2, st2, et2, lg2, ms2⟩ := other
  unfold mergeTimestamps
  rcases st2 with _ | s <;> rcases st1 with _ | t <;>
    rcases et2 with _ | e <;> rcases et1 with _ | te <;>
      simp only [optEarlier, optLater, threeWayCompare_eq_neg_one] <;>
        (try split_ifs) <;>
          simp_all [min_def, max_def] <;>
            (try split_ifs) <;> (try simp_all) <;> linarith

theorem ofOperation_ok_inv {op : Operation} {kinds : List (String × MetricKind)}
    {a : Aggregator} (h : Aggregator.ofOperation op kinds = .ok a) :
    a.kinds = kinds ∧ a.op = { op with metricValueSets := [] } ∧
      mergeMetricValues kinds [] op.metricValueSets =
        .ok a.metricValuesByNameThenSign := by
  unfold Aggregator.ofOperation at h
  obtain ⟨m, hm, hpure⟩ := exceptBind_ok h
  have ha : ({ kinds := kinds, metricValuesByNameThenSign := m
               op := { op with metricValueSets := [] } } : Aggregator) = a := by
    simpa [pure, Except.pure] using hpure
  subst ha
  exact ⟨rfl, rfl, hm⟩

theorem add_ok_inv {a : Aggregator} {other : Operation} {a' : Aggregator}
    (h : a.add other = .ok a') :
    a'.kinds = a.kinds ∧
      a'.op =
        mergeTimestamps
          { a.op with logEntries := a.op.logEntries ++ other.logEntries }
          other ∧
      mergeMetricValues a.kinds a.metricValuesByNameThenSign
          other.metricValueSets = .ok a'.metricValuesByNameThenSign := by
  unfold Aggregator.add at h
  obtain ⟨m, hm, hpure⟩ := exceptBind_ok h
  have ha :
      ({ a with
         op := mergeTimestamps
           { a.op with logEntries := a.op.logEntries ++ other.logEntries }
           other
         metricValuesByNameThenSign := m } : Aggregator) = a' := by
    simpa [pure, Except.pure] using hpure
  subst ha
  exact ⟨rfl, rfl, hm⟩

theorem twoValueChain (name : String) (kinds : List (String × MetricKind))
    (mv1 mv2 merged : MetricValue)
    (hsig : sign mv1 = sign mv2)
    (hc : MetricValue.combine (kindOf kinds name) mv1 mv2 = .ok merged) :
    (Aggregator.ofOperation (singleValueOp name mv1) kinds).bind
        (fun a1 => (a1.add (singleValueOp name mv2)).map
          (fun a2 => a2.asOperation.metricValueSets)) =
      .ok [{ metricName := name, metricValues := [merged] }] := by
  have h1 : Aggregator.ofOperation (singleValueOp name mv1) kinds =
      .ok { kinds := kinds
            metricValuesByNameThenSign := [(name, [(sign mv1, mv1)])]
            op := Operation.empty } := rfl
  rw [h1]
  simp only [Except.bind]
  have h2 : mergeMetricValues kinds [(name, [(sign mv1, mv1)])]
      [{ metricName := name, metricValues := [mv2] }] =
      .ok [(name, [(sign mv2, merged)])] := by
    simp [mergeMetricValues, List.foldlM, mergeValueSet, mergeOneValue,
      alistGet, alistPut, hsig, hc, pure, Except.pure, Bind.bind, Except.bind]
  have h3 : Aggregator.add
      { kinds := kinds
        metricValuesByNameThenSign := [(name, [(sign mv1, mv1)])]
        op := Operation.empty } (singleValueOp name mv2) =
      .ok { kinds := kinds
            metricValuesByNameThenSign := [(name, [(sign mv2, merged)])]
            op := Operation.empty } := by
    unfold Aggregator.add
    simp [singleValueOp, Operation.empty, mergeTimestamps, h2,
      Bind.bind, Except.bind, pure, Except.pure]
  rw [h3]
  simp [Except.map, Aggregator.asOperation, exportSets, alistGet,
    List.insertionSort, List.orderedInsert, Operation.empty]

/-- The spec's additive rule for numeric payloads, used to state the claim:
the sum of two int64 payloads, or of two double payloads. -/
def numericSum : MetricPayload → MetricPayload → Option MetricPayload
  | .int64 a, .int64 b => some (.int64 (a + b))
  | .double a, .double b => some (.double (a + b))
  | _, _ => none

/-! ### Claim theorems -/

/-- C1: for two samples sharing a signature under a DELTA-kind metric with
numeric payloads (int64 or double), merging them through the Aggregator
retains one sample whose value is the sum of the two input values,
regardless of merge order; in particular the "requests" example (DELTA,
int64 = 1, no labels, added twice) exports value 2. -/
theorem spec_C1 :
    (∀ (name : String) (kinds : List (String × MetricKind))
        (mv1 mv2 : MetricValue) (p : MetricPayload),
      kindOf kinds name = MetricKind.DELTA →
      sign mv1 = sign mv2 →
      numericSum mv1.payload mv2.payload = some p →
      (Aggregator.ofOperation (singleValueOp name mv1) kinds).bind
          (fun a1 => (a1.add (singleValueOp name mv2)).map
            (fun a2 => a2.asOperation.metricValueSets)) =
        .ok [{ metricName := name
               metricValues := [{ mv2 with payload := p }] }] ∧
      (Aggregator.ofOperation (singleValueOp name mv2) kinds).bind
          (fun a1 => (a1.add (singleValueOp name mv1)).map
            (fun a2 => a2.asOperation.metricValueSets)) =
        .ok [{ metricName := name
               metricValues := [{ mv1 with payload := p }] }]) ∧
    (Aggregator.ofOperation (singleValueOp "requests" requestsMv) []).bind
        (fun a1 => (a1.add (singleValueOp "requests" requestsMv)).map
          (fun a2 => a2.asOperation.metricValueSets)) =
      .ok [{ metricName := "requests"
             metricValues := [{ labels := [], payload := .int64 2 }] }] := by
  constructor
  · intro name kinds mv1 mv2 p hk hsig hsum
    constructor
    · refine twoValueChain name kinds mv1 mv2 _ hsig ?_
      rw [hk]
      cases hp1 : mv1.payload <;> cases hp2 : mv2.payload <;>
        simp [numericSum, hp1, hp2] at hsum <;>
        simp [MetricValue.combine, hp1, hp2, hsum]
    · refine twoValueChain name kinds mv2 mv1 _ hsig.symm ?_
      rw [hk]
      cases hp1 : mv1.payload <;> cases hp2 : mv2.payload <;>
        simp [numericSum, hp1, hp2] at hsum <;>
        simp [MetricValue.combine, hp1, hp2, ← hsum, add_comm]
  · rfl

/-- Witness for C1: the concrete "requests" example, both hypotheses
discharged by evaluation. -/
theorem spec_C1_witness :
    (Aggregator.ofOperation (singleValueOp "requests" requestsMv) []).bind
        (fun a1 => (a1.add (singleValueOp "requests" requestsMv)).map
          (fun a2 => a2.asOperation.metricValueSets)) =
      .ok [{ metricName := "requests"
             metricValues := [{ requestsMv with payload := .int64 2 }] }] :=
  (spec_C1.1 "requests" [] requestsMv requestsMv (.int64 2) rfl rfl rfl).1

/-- C2: after a successful `add`, the held operation's start time is the
earlier of the tracked and incoming start times and its end time the later,
an absent bound on either side being non-constraining. -/
theorem spec_C2 (a : Aggregator) (other : Operation) (a' : Aggregator)
    (h : a.add other = .ok a') :
    a'.op.startTime = optEarlier a.op.startTime other.startTime ∧
      a'.op.endTime = optLater a.op.endTime other.endTime := by
  obtain ⟨-, hop, -⟩ := add_ok_inv h
  rw [hop, mergeTimestamps_char]
  exact ⟨rfl, rfl⟩

/-- Witness for C2: tracked range [5, 10] widened by incoming [3, 7] keeps
end 10 and moves start to 3. -/
theorem spec_C2_witness :
    ({ kinds := [], metricValuesByNameThenSign := []
       op := { Operation.empty with startTime := some 3, endTime := some 10 } } :
        Aggregator).op.startTime =
      optEarlier
        ({ kinds := [], metricValuesByNameThenSign := []
           op := { Operation.empty with
                   startTime := some 5, endTime := some 10 } } :
            Aggregator).op.startTime
        ({ Operation.empty with startTime := some 3, endTime := some 7 } :
            Operation).startTime ∧
    ({ kinds := [], metricValuesByNameThenSign := []
       op := { Operation.empty with startTime := some 3, endTime := some 10 } } :
        Aggregator).op.endTime =
      optLater
        ({ kinds := [], metricValuesByNameThenSign := []
           op := { Operation.empty with
                   startTime := some 5, endTime := some 10 } } :
            Aggregator).op.endTime
        ({ Operation.empty with startTime := some 3, endTime := some 7 } :
            Operation).endTime :=
  spec_C2 _ _ _ rfl

/-- C3: the signature maps hold at most one sample per (metric name,
signature) pair — the invariant holds after construction and is preserved by
`add`, and merging a sample whose signature is already present replaces the
binding instead of adding an entry. -/
theorem spec_C3 :
    (∀ (op : Operation) (kinds : List (String × MetricKind)) (a : Aggregator),
      Aggregator.ofOperation op kinds = .ok a → a.Wf) ∧
    (∀ (a : Aggregator) (other : Operation) (a' : Aggregator),
      a.Wf → a.add other = .ok a' → a'.Wf) ∧
    (∀ (kind : MetricKind) (b : List (Signature × MetricValue))
        (mv : MetricValue) (r : List (Signature × MetricValue)),
      sign mv ∈ b.map Prod.fst → mergeOneValue kind b mv = .ok r →
      r.map Prod.fst = b.map Prod.fst) := by
  refine ⟨?_, ?_, ?_⟩
  · intro op kinds a h
    obtain ⟨-, -, hm⟩ := ofOperation_ok_inv h
    exact mergeMetricValues_wf ⟨by simp, by simp⟩ hm
  · intro a other a' ha h
    obtain ⟨-, -, hm⟩ := add_ok_inv h
    exact mergeMetricValues_wf ha hm
  · intro kind b mv r hmem h
    obtain ⟨stored, hr, -⟩ := mergeOneValue_ok h
    rw [hr]
    exact alistPut_keys_mem b (sign mv) stored hmem

/-- Witness for C3: the invariant holds on the aggregator built from the
"requests" operation, and after adding that operation once more. -/
theorem spec_C3_witness :
    Aggregator.Wf
      { kinds := []
        metricValuesByNameThenSign := [("requests", [([], requestsMv)])]
        op := Operation.empty } ∧
    Aggregator.Wf
      { kinds := []
        metricValuesByNameThenSign :=
          [("requests", [([], { labels := [], payload := .int64 2 })])]
        op := Operation.empty } :=
  ⟨spec_C3.1 (singleValueOp "requests" requestsMv) [] _ rfl,
   spec_C3.2.1 _ (singleValueOp "requests" requestsMv) _
     (spec_C3.1 (singleValueOp "requests" requestsMv) [] _ rfl) rfl⟩

/-- C4: exported metric value sets are sorted ascending by metric name (the
skeleton's own set list is empty after construction and untouched by `add`),
and the export is stable across repeated calls on the same state. -/
theorem spec_C4 :
    (∀ (op : Operation) (kinds : List (String × MetricKind)) (a : Aggregator),
      Aggregator.ofOperation op kinds = .ok a → a.op.metricValueSets = []) ∧
    (∀ (a : Aggregator) (other : Operation) (a' : Aggregator),
      a.add other = .ok a' →
      a'.op.metricValueSets = a.op.metricValueSets) ∧
    (∀ a : Aggregator, a.op.metricValueSets = [] →
      List.Sorted (· ≤ ·)
        (a.asOperation.metricValueSets.map MetricValueSet.metricName)) ∧
    (∀ a : Aggregator,
      a.asOperationCall.1 = (a.asOperationCall.2).asOperationCall.1) := by
  refine ⟨?_, ?_, ?_, fun a => rfl⟩
  · intro op kinds a h
    rw [(ofOperation_ok_inv h).2.1]
  · intro a other a' h
    rw [(add_ok_inv h).2.1, mergeTimestamps_char]
  · intro a ha
    have hsets : a.asOperation.metricValueSets =
        a.op.metricValueSets ++ exportSets a.metricValuesByNameThenSign := rfl
    rw [hsets, ha, List.nil_append]
    unfold exportSets
    rw [List.map_map]
    have hid : (MetricValueSet.metricName ∘ fun name =>
        ({ metricName := name
           metricValues :=
             ((alistGet a.metricValuesByNameThenSign name).getD []).map
               Prod.snd } : MetricValueSet)) = id := rfl
    rw [hid, List.map_id]
    exact List.sorted_insertionSort _ _

/-- Witness for C4: the "requests" aggregator has an empty skeleton set list
and its export's names are sorted. -/
theorem spec_C4_witness :
    ({ kinds := []
       metricValuesByNameThenSign := [("requests", [([], requestsMv)])]
       op := Operation.empty } : Aggregator).op.metricValueSets =
      ([] : List MetricValueSet) ∧
    List.Sorted (· ≤ ·)
      (({ kinds := []
          metricValuesByNameThenSign := [("requests", [([], requestsMv)])]
          op := Operation.empty } :
          Aggregator).asOperation.metricValueSets.map
        MetricValueSet.metricName) :=
  ⟨spec_C4.1 (singleValueOp "requests" requestsMv) [] _ rfl,
   spec_C4.2.2.1 _ rfl⟩

/-- C5: when a sample is merged whose signature already has a prior sample,
the sample retained in the map is the incoming one — its label list survives
verbatim, and under every non-DELTA kind it is retained entirely
unchanged. -/
theorem spec_C5 (kind : MetricKind) (b : List (Signature × MetricValue))
    (mv prior merged : MetricValue)
    (hget : alistGet b (sign mv) = some prior)
    (hc : MetricValue.combine kind prior mv = .ok merged) :
    mergeOneValue kind b mv = .ok (alistPut b (sign mv) merged) ∧
      alistGet (alistPut b (sign mv) merged) (sign mv) = some merged ∧
      merged.labels = mv.labels ∧
      (kind ≠ MetricKind.DELTA → merged = mv) := by
  obtain ⟨hl, hnd⟩ := combine_ok_labels hc
  refine ⟨?_, alistGet_put_self _ _ _, hl, hnd⟩
  unfold mergeOneValue
  dsimp only
  rw [hget]
  dsimp only
  rw [hc]
  rfl

/-- Witness for C5: a GAUGE metric observed as 5 then 3 retains the incoming
sample with value 3. -/
theorem spec_C5_witness :
    mergeOneValue MetricKind.GAUGE
        [([], { labels := [], payload := .int64 5 })]
        { labels := [], payload := .int64 3 } =
      .ok [([], { labels := [], payload := .int64 3 })] :=
  (spec_C5 MetricKind.GAUGE [([], { labels := [], payload := .int64 5 })]
    { labels := [], payload := .int64 3 } { labels := [], payload := .int64 5 }
    { labels := [], payload := .int64 3 } rfl rfl).1

/-- C6: construction copies all non-metric fields into the held skeleton,
leaves the skeleton's metric value sets empty, folds the initial record's own
samples in as the first merge, and the immediate export carries the
non-metric fields alongside the exported metrics. -/
theorem spec_C6 (op : Operation) (kinds : List (String × MetricKind))
    (a : Aggregator) (h : Aggregator.ofOperation op kinds = .ok a) :
    a.op = { op with metricValueSets := [] } ∧
      mergeMetricValues kinds [] op.metricValueSets =
        .ok a.metricValuesByNameThenSign ∧
      a.asOperation =
        { op with
          metricValueSets := exportSets a.metricValuesByNameThenSign } := by
  obtain ⟨-, hop, hm⟩ := ofOperation_ok_inv h
  refine ⟨hop, hm, ?_⟩
  unfold Aggregator.asOperation
  rw [hop]
  rfl

/-- Witness for C6: construction from the "requests" operation. -/
theorem spec_C6_witness :
    ({ kinds := []
       metricValuesByNameThenSign := [("requests", [([], requestsMv)])]
       op := Operation.empty } : Aggregator).op =
      { singleValueOp "requests" requestsMv with metricValueSets := [] } ∧
    ({ kinds := []
       metricValuesByNameThenSign := [("requests", [([], requestsMv)])]
       op := Operation.empty } : Aggregator).asOperation =
      { singleValueOp "requests" requestsMv with
        metricValueSets :=
          exportSets [("requests", [([], requestsMv)])] } :=
  ⟨(spec_C6 (singleValueOp "requests" requestsMv) [] _ rfl).1,
   (spec_C6 (singleValueOp "requests" requestsMv) [] _ rfl).2.2⟩

/-- C7: `as_operation`, viewed as a state transformer, leaves the aggregator
state untouched (the body mutates only its local copy of the skeleton), and
with no intervening `add` repeated calls return equal snapshots. -/
theorem spec_C7 (a : Aggregator) :
    a.asOperationCall.2 = a ∧
      a.asOperationCall.1 = (a.asOperationCall.2).asOperationCall.1 ∧
      a.asOperationCall.1 = a.asOperation :=
  ⟨rfl, rfl, rfl⟩

/-- C8: a successful `add` appends the incoming log entries in order with no
deduplication, and changes no field of the held skeleton other than
`logEntries`, `startTime` and `endTime`. -/
theorem spec_C8 (a : Aggregator) (other : Operation) (a' : Aggregator)
    (h : a.add other = .ok a') :
    a'.op.logEntries = a.op.logEntries ++ other.logEntries ∧
      a'.op = { a.op with
                logEntries := a'.op.logEntries
                startTime := a'.op.startTime
                endTime := a'.op.endTime } := by
  obtain ⟨-, hop, -⟩ := add_ok_inv h
  rw [hop, mergeTimestamps_char]
  exact ⟨rfl, rfl⟩

/-- Witness for C8: adding an operation with log entry "b" to an aggregator
holding log entry "a" yields the concatenation. -/
theorem spec_C8_witness :
    ({ kinds := [], metricValuesByNameThenSign := []
       op := { Operation.empty with logEntries := ["a", "b"] } } :
        Aggregator).op.logEntries =
      ({ kinds := [], metricValuesByNameThenSign := []
         op := { Operation.empty with logEntries := ["a"] } } :
          Aggregator).op.logEntries ++
        ({ Operation.empty with logEntries := ["b"] } :
            Operation).logEntries :=
  (spec_C8
    { kinds := [], metricValuesByNameThenSign := []
      op := { Operation.empty with logEntries := ["a"] } }
    { Operation.empty with logEntries := ["b"] }
    { kinds := [], metricValuesByNameThenSign := []
      op := { Operation.empty with logEntries := ["a", "b"] } }
    rfl).1

/-- C9: constructing an Aggregator from a record that is not an Operation
fails with the invalid-argument error, and construction succeeds only when
the record is an Operation. -/
theorem spec_C9 :
    (∀ (record : PyRecord) (kinds : List (String × MetricKind)),
      (∀ o : Operation, record ≠ PyRecord.operation o) →
      Aggregator.initFromRecord record kinds =
        .error "initial_op must be an Operation") ∧
    (∀ (record : PyRecord) (kinds : List (String × MetricKind))
        (a : Aggregator),
      Aggregator.initFromRecord record kinds = .ok a →
      ∃ o : Operation, record = PyRecord.operation o) := by
  constructor
  · intro record kinds hr
    cases record with
    | operation o => exact absurd rfl (hr o)
    | pyNone => rfl
    | pyStr s => rfl
    | pyInt n => rfl
    | pyList n => rfl
  · intro record kinds a h
    cases record with
    | operation o => exact ⟨o, rfl⟩
    | pyNone => exact Except.noConfusion h
    | pyStr s => exact Except.noConfusion h
    | pyInt n => exact Except.noConfusion h
    | pyList n => exact Except.noConfusion h

/-- Witness for C9: constructing from the Python `None` record fails with
the invalid-argument error. -/
theorem spec_C9_witness :
    Aggregator.initFromRecord PyRecord.pyNone [] =
      .error "initial_op must be an Operation" :=
  spec_C9.1 PyRecord.pyNone [] fun _ h => PyRecord.noConfusion h

/-- C10: every member of the known-metrics enumeration is declared with kind
DELTA, so every descriptor accepted by `is_supported` has kind DELTA, and a
kind lookup through the known-metrics kind table never selects the non-DELTA
merge policy. -/
theorem spec_C10 :
    (∀ m ∈ knownMetrics, m.kind = MetricKind.DELTA) ∧
    (∀ desc : MetricDescriptor, is_supported desc = true →
      desc.metricKind = MetricKind.DELTA) ∧
    (∀ name : String, kindOf knownKinds name = MetricKind.DELTA) := by
  have hall : ∀ m ∈ knownMetrics, m.kind = MetricKind.DELTA := by decide
  refine ⟨hall, ?_, ?_⟩
  · intro desc h
    rw [is_supported, List.any_eq_true] at h
    obtain ⟨m, hm, hmatch⟩ := h
    rw [KnownMetric.matches] at hmatch
    simp only [Bool.and_eq_true, decide_eq_true_eq] at hmatch
    rw [← hmatch.1.2]
    exact hall m hm
  · intro name
    unfold kindOf
    cases hget : alistGet knownKinds name with
    | none => rfl
    | some k =>
        rw [Option.getD_some]
        obtain ⟨m, hm, hpair⟩ := List.mem_map.mp (alistGet_mem hget)
        have hk : m.kind = k := congrArg Prod.snd hpair
        rw [← hk]
        exact hall m hm

/-- Witness for C10: the consumer request-count descriptor is supported, and
its kind is DELTA. -/
theorem spec_C10_witness :
    ({ name := "serviceruntime.googleapis.com/api/consumer/request_count"
       metricKind := MetricKind.DELTA, valueType := ValueType.INT64 } :
        MetricDescriptor).metricKind = MetricKind.DELTA ∧
    kindOf knownKinds
        "serviceruntime.googleapis.com/api/consumer/request_count" =
      MetricKind.DELTA :=
  ⟨spec_C10.2.1 _ rfl, spec_C10.2.2 _⟩

end SCC
